import Mathlib

/-!
Shallow embedding of the google_jobs_api_actor pipeline
(src/google_jobs_api.js, src/database.js, src/main.js) and proofs about it.

Strings from JavaScript are modelled as Lean `String` / `List Char`;
JavaScript `null`/`undefined`-able strings as `Option String`.  Character
classes of the JavaScript regexes are modelled over ASCII (`\s` as space,
tab, newline, carriage return; `\w` as `[A-Za-z0-9_]`), which covers every
string the program manipulates here.
-/

namespace GoogleJobs

/-- Whitespace test for the JavaScript `\s` class (ASCII subset). -/
def isWs (c : Char) : Bool :=
  c == ' ' || c == '\t' || c == '\n' || c == '\r'

/-- Word-character test for the JavaScript `\w` class: `[A-Za-z0-9_]`. -/
def isWordC (c : Char) : Bool :=
  c.isAlpha || c.isDigit || c == '_'

/-- Model of JavaScript `String.prototype.toLowerCase` on the ASCII strings
used by this program, as a list of characters. -/
def jsLower (s : String) : List Char :=
  s.data.map Char.toLower

/-- Model of JavaScript `String.prototype.startsWith` on character lists. -/
def startsWithL : List Char → List Char → Bool
  | _, [] => true
  | [], _ :: _ => false
  | c :: cs, d :: ds => c == d && startsWithL cs ds

/-- Model of JavaScript `String.prototype.includes` (substring containment)
on character lists. -/
def containsL : List Char → List Char → Bool
  | [], needle => needle.isEmpty
  | c :: cs, needle => startsWithL (c :: cs) needle || containsL cs needle

/-- Model of JavaScript `String.prototype.endsWith` on character lists. -/
def endsWithL (hay needle : List Char) : Bool :=
  startsWithL hay.reverse needle.reverse

/-- Model of JavaScript `String.prototype.trim` on character lists. -/
def trimL (l : List Char) : List Char :=
  ((l.dropWhile isWs).reverse.dropWhile isWs).reverse

/-- Truthiness of a JavaScript string-or-null value: `null`, `undefined`
and the empty string are falsy. -/
def jsTruthy : Option String → Bool
  | none => false
  | some v => v ≠ ""

/-- Model of the JavaScript idiom `s || d` for a string-or-null `s` and a
default `d`. -/
def jsOrStr (o : Option String) (d : String) : String :=
  match o with
  | some v => if v = "" then d else v
  | none => d

/-- Model of JavaScript `String.prototype.replace` with a string pattern:
remove the first occurrence of `pat` (replacement is the empty string),
leaving the input unchanged when `pat` does not occur. -/
def replaceFirstL (l pat : List Char) : List Char :=
  match l with
  | [] => []
  | c :: cs => if startsWithL (c :: cs) pat then cs.drop (pat.length - 1)
               else c :: replaceFirstL cs pat

/-! ## ExclusionEngine (src/google_jobs_api.js, `EXCLUDED_COMPANIES`,
`FAST_FOOD_RESTAURANTS`, `shouldExcludeCompany`) -/

/-- The `EXCLUDED_COMPANIES` constant: the literal list from
src/google_jobs_api.js lines 147-156, lower-cased exactly as the source
does with `.map(name => name.toLowerCase())`. -/
def EXCLUDED_COMPANIES : List (List Char) :=
  [ "Alliance Personnel", "August Point Advisors", "Bon Appetit", "Capital Restaurant Associates",
    "Chartwells", "Compass", "CORE Recruitment", "EHS Recruiting", "Empowered Hospitality",
    "Eurest", "Goodwin Recruiting", "HMG Plus - New York", "LSG Sky Chefs", "Major Food Group",
    "Measured HR", "One Haus", "Patrice & Associates", "Persone NYC", "Playbook Advisors",
    "Restaurant Associates", "Source One Hospitality", "Ten Five Hospitality",
    "The Goodkind Group", "Tuttle Hospitality", "Willow Tree Recruiting",
    "washington", "washington dc", "washington d.c.", "washington d c"
  ].map jsLower

/-- The `FAST_FOOD_RESTAURANTS` constant: the literal list from
src/google_jobs_api.js lines 162-179, lower-cased exactly as the source
does with `.map(name => name.toLowerCase())`. -/
def FAST_FOOD_RESTAURANTS : List (List Char) :=
  [ "McDonald's", "Burger King", "Wendy's", "Subway", "Taco Bell", "Pizza Hut",
    "KFC", "Chick-fil-A", "Sonic Drive-In", "Domino's Pizza", "Dairy Queen",
    "Papa John's", "Arby's", "Little Caesars", "Popeyes", "Chipotle", "Hardee's",
    "Jimmy John's", "Zaxby's", "Five Guys", "Whataburger", "Culver's", "Steak 'n Shake",
    "Church's Chicken", "Raising Cane's", "Wingstop", "Qdoba", "Jersey Mike's Subs",
    "Firehouse Subs", "Moe's Southwest Grill", "McAlister's Deli", "Panda Express",
    "Panera Bread", "Bojangles'", "El Pollo Loco", "Del Taco", "In-N-Out Burger",
    "White Castle", "Checkers", "Rally's", "Shake Shack", "Smashburger", "Auntie Anne's",
    "Baskin-Robbins", "Boston Market", "Captain D's", "Carl's Jr.", "Charleys Philly Steaks",
    "Chuck E. Cheese's", "Cinnabon", "Cold Stone Creamery", "Cousins Subs", "Dunkin'",
    "Einstein Bros. Bagels", "Fazoli's", "Godfather's Pizza", "Golden Corral", "Hungry Howie's",
    "Jamba Juice", "Jason's Deli", "Jollibee", "Krispy Kreme", "Krystal", "Long John Silver's",
    "Marco's Pizza", "Nathan's Famous", "Noodles & Company", "Penn Station", "Port of Subs",
    "Potbelly Sandwich Shop", "Quiznos", "Round Table Pizza", "Roy Rogers", "Rubio's",
    "Schlotzsky's", "Smoothie King", "Starbucks", "Taco John's", "Tim Hortons", "Tropical Smoothie Cafe",
    "Wienerschnitzel", "Wing Street", "Zoup!"
  ].map jsLower

/-- Exclusion reasons returned by `shouldExcludeCompany`. -/
inductive ExclusionReason where
  | excluded_company
  | fast_food
  deriving DecidableEq

/-- The verdict object `{ isExcluded, reason, match }` returned by
`shouldExcludeCompany`; the `match` property is called `matched` here
because `match` is a Lean keyword. -/
structure ExclusionVerdict where
  isExcluded : Bool
  reason : Option ExclusionReason
  matched : Option (List Char)
  deriving DecidableEq

/-- The fast-food comparison of `shouldExcludeCompany` (src lines 202-205):
exact equality, or the brand surrounded by spaces, or the brand anchoring
the start of the string with a trailing space, or anchoring the end with a
leading space. -/
def fastFoodTokenMatch (lowerCompany fastFood : List Char) : Bool :=
  lowerCompany == fastFood ||
  containsL lowerCompany (' ' :: (fastFood ++ [' '])) ||
  startsWithL lowerCompany (fastFood ++ [' ']) ||
  endsWithL lowerCompany (' ' :: fastFood)

/-- Model of `shouldExcludeCompany` (src/google_jobs_api.js lines 186-211).
The guard `!company` is the string-truthiness test on the company field. -/
def shouldExcludeCompany (company : String) : ExclusionVerdict :=
  if company = "" || company = "Unknown Company" then
    ⟨false, none, none⟩
  else
    let lowerCompany := jsLower company
    match EXCLUDED_COMPANIES.find? (fun excluded => containsL lowerCompany excluded) with
    | some excluded => ⟨true, some .excluded_company, some excluded⟩
    | none =>
      match FAST_FOOD_RESTAURANTS.find? (fun fastFood => fastFoodTokenMatch lowerCompany fastFood) with
      | some fastFood => ⟨true, some .fast_food, some fastFood⟩
      | none => ⟨false, none, none⟩

/-! ## Data model: highlights and the normalized job produced by
`searchJobs` (src/google_jobs_api.js lines 59-94) -/

/-- One structured highlight block of a raw result: a titled list of
text items (`job_highlights` entries). -/
structure Highlight where
  title : String
  items : List String
  deriving DecidableEq

/-- The normalized job object built by the `processedJobs` map inside
`searchJobs` (src/google_jobs_api.js lines 81-93). -/
structure NJob where
  title : String
  company : String
  location : String
  posted_at : String
  schedule : String
  description : String
  highlights : List Highlight
  extensions : List String
  apply_link : Option String
  apply_links : List String
  source : String
  deriving DecidableEq

/-! ## FieldExtractor: experience level
(src/google_jobs_api.js, `calculateExperienceLevel`, lines 478-510) -/

/-- Model of `calculateExperienceLevel`: lower-cases the title (and the
description, which the source computes but never consults) and scans the
title for tier keywords, executive tier first, then senior, then entry,
defaulting to `"mid"`. -/
def calculateExperienceLevel (job : NJob) : String :=
  let title := jsLower job.title
  if containsL title "executive chef".data ||
     containsL title "head chef".data ||
     containsL title "chef de cuisine".data ||
     containsL title "culinary director".data then
    "executive"
  else if containsL title "senior".data ||
          containsL title "sr.".data ||
          containsL title "lead".data ||
          containsL title "sous chef".data then
    "senior"
  else if containsL title "junior".data ||
          containsL title "jr.".data ||
          containsL title "entry".data ||
          containsL title "trainee".data ||
          containsL title "apprentice".data ||
          containsL title "commis".data then
    "entry"
  else
    "mid"

/-- The executive-tier keywords of `calculateExperienceLevel`. -/
def executiveKeywords : List String :=
  ["executive chef", "head chef", "chef de cuisine", "culinary director"]

/-- The senior-tier keywords of `calculateExperienceLevel`. -/
def seniorKeywords : List String :=
  ["senior", "sr.", "lead", "sous chef"]

/-- The entry-tier keywords of `calculateExperienceLevel`. -/
def entryKeywords : List String :=
  ["junior", "jr.", "entry", "trainee", "apprentice", "commis"]

/-- Whether any keyword of a tier occurs in the lower-cased title. -/
def titleMatchesTier (title : String) (keywords : List String) : Bool :=
  keywords.any (fun k => containsL (jsLower title) k.data)

/-! ## Pipeline filtering (src/google_jobs_api.js `processJobsForDatabase`
lines 219-368, and the per-query loop of src/main.js lines 373-418) -/

/-- The kept/dropped decision of `processJobsForDatabase`: a job survives
exactly when `shouldExcludeCompany` does not exclude its company.  Field
extraction and enrichment, which do not affect which jobs are dropped, are
modelled separately (`extractSalaryInfo`, `calculateExperienceLevel`,
`enrichCompany`).  Note the function has no parameter for either exclusion
toggle: the checks run unconditionally. -/
def processJobsKept (jobs : List NJob) : List NJob :=
  jobs.filter (fun job => !(shouldExcludeCompany job.company).isExcluded)

/-- The full-time test of src/main.js lines 393-396: schedule literally
`"Full-time"`, or some extension containing `"Full-time"`. -/
def isFullTimeJob (job : NJob) : Bool :=
  job.schedule == "Full-time" ||
  job.extensions.any (fun ext => containsL ext.data "Full-time".data)

/-- The per-query filtering stage of src/main.js lines 390-414: the
full-time filter when `fullTimeOnly` is set, then
`processJobsForDatabase`.  The `excludeFastFood` and `excludeRecruiters`
input toggles are destructured by main.js (lines 312-336) and logged, but
are never passed on, exactly as here: the result does not depend on
them. -/
def mainProcessQuery (fullTimeOnly excludeFastFood excludeRecruiters : Bool)
    (jobs : List NJob) : List NJob :=
  let filteredJobs := if fullTimeOnly then jobs.filter isFullTimeJob else jobs
  processJobsKept filteredJobs

/-- A job posting at Subway used as a concrete pipeline input. -/
def subwayJob : NJob :=
  { title := "Cook"
    company := "Subway"
    location := "New York, NY"
    posted_at := "3 days ago"
    schedule := "Full-time"
    description := "Prepare sandwiches."
    highlights := []
    extensions := ["Full-time"]
    apply_link := some "https://example.com/subway-cook"
    apply_links := []
    source := "Example" }

/-- A job posting at an excluded recruiting agency used as a concrete
pipeline input. -/
def recruiterJob : NJob :=
  { title := "Chef"
    company := "Goodwin Recruiting"
    location := "Boston, MA"
    posted_at := "1 day ago"
    schedule := "Full-time"
    description := "Placement role."
    highlights := []
    extensions := ["Full-time"]
    apply_link := some "https://example.com/goodwin-chef"
    apply_links := []
    source := "Example" }

/-! ## Aggregator (src/google_jobs_api.js, `searchAllJobs`, lines 115-142)

`searchJobs` returns `{ jobs, hasMore, nextPageToken }`; the pagination
loop reads `jobs` and `nextPageToken`.  The provider is modelled as a
function from the zero-based index of the fetch to the response of that
fetch. -/

/-- One `searchJobs` response as consumed by the pagination loop. -/
structure SearchPage where
  jobs : List NJob
  nextPageToken : Option String

/-- One iteration of the do-while loop of `searchAllJobs`: `current` is the
zero-based index of the page being fetched (the source's `currentPage`
counter equals `current + 1`), `remaining` is the number of further pages
the cap still allows (`maxPages - currentPage`, so the source's
post-condition `currentPage < maxPages` is `remaining > 0`), and `acc` is
`allJobs`.  Returns the accumulated jobs and the final value of
`currentPage`.  The loop breaks when a page has zero results, and
otherwise continues exactly when the response carries a continuation token
and the page cap is not yet reached. -/
def searchAllJobsAux (provider : Nat → SearchPage) :
    Nat → Nat → List NJob → List NJob × Nat
  | remaining, current, acc =>
    let r := provider current
    if r.jobs = [] then
      (acc, current + 1)
    else
      match remaining with
      | rem + 1 =>
        match r.nextPageToken with
        | some _ => searchAllJobsAux provider rem (current + 1) (acc ++ r.jobs)
        | none => (acc ++ r.jobs, current + 1)
      | 0 => (acc ++ r.jobs, current + 1)

/-- Model of `searchAllJobs`: run the pagination loop from the first page
with an empty accumulator and `maxPages - 1` further pages allowed,
returning all jobs in fetch order together with the number of pages
fetched. -/
def searchAllJobs (provider : Nat → SearchPage) (maxPages : Nat) : List NJob × Nat :=
  searchAllJobsAux provider (maxPages - 1) 0 []

/-! ## FieldExtractor: salary
(src/google_jobs_api.js, `extractSalaryInfo`, lines 375-428)

The JavaScript regex is
`/\$([0-9,.]+)(?:\s*-\s*\$([0-9,.]+))?(?:\s*(per|a|\/)\s*(hour|year|month|week|day))?/i`.
Group 1 and the optional group 2 are runs of `[0-9,.]`; since `-`, `$` and
the period keywords all start with characters outside that class and
outside `\s`, the greedy runs never need to backtrack, so the scanner
below (maximal runs, optional groups matched greedily and dropped on
failure) matches the regex exactly. -/

/-- The `[0-9,.]` character class of the salary regex. -/
def isNumC (c : Char) : Bool :=
  c.isDigit || c == ',' || c == '.'

/-- Case-insensitive `startsWith`, for the regex `i` flag. -/
def ciStartsWith (l : List Char) (pat : List Char) : Bool :=
  startsWithL (l.map Char.toLower) pat

/-- Value of a decimal digit character. -/
def digitVal (c : Char) : Nat :=
  c.toNat - 48

/-- Natural number denoted by a list of decimal digits. -/
def digitsToNat (l : List Char) : Nat :=
  l.foldl (fun a c => a * 10 + digitVal c) 0

/-- A JavaScript number produced by `parseFloat` on a `[0-9.]` string,
represented exactly: the value is `mantissa / 10 ^ scale`. -/
structure JsNum where
  mantissa : Nat
  scale : Nat
  deriving DecidableEq

/-- Model of `parseFloat` on the comma-stripped salary strings (character
class `[0-9.]`): an integer part, then optionally a dot and a fraction
part; parsing stops at a second dot, and a string with no digits before
the optional first dot and none after it is NaN, modelled as `none`
(`NaN`, like an absent match, is falsy wherever the source tests the
value). -/
def jsParseFloat (l : List Char) : Option JsNum :=
  let ip := l.takeWhile Char.isDigit
  let rest := l.drop ip.length
  let fp := match rest with
    | '.' :: r => r.takeWhile Char.isDigit
    | _ => []
  if ip = [] ∧ fp = [] then none
  else some ⟨digitsToNat ip * 10 ^ fp.length + digitsToNat fp, fp.length⟩

/-- The capture groups of one salary-regex match: group 1 (minimum),
optional group 2 (maximum), optional group 4 (period keyword, stored
lower-cased as the source immediately lower-cases it). -/
structure SalaryMatch where
  g1 : List Char
  g2 : Option (List Char)
  g4 : Option (List Char)
  deriving DecidableEq

/-- The optional group `(?:\s*-\s*\$([0-9,.]+))?`: skip whitespace, a
dash, whitespace, a dollar sign, then a nonempty `[0-9,.]` run.  Returns
the run and the rest of the input, or `none` when the group does not
match (consuming nothing). -/
def salaryDashGroup (l : List Char) : Option (List Char × List Char) :=
  let r1 := l.dropWhile isWs
  match r1 with
  | '-' :: r2 =>
    let r3 := r2.dropWhile isWs
    match r3 with
    | '$' :: r4 =>
      let g2 := r4.takeWhile isNumC
      if g2 = [] then none else some (g2, r4.drop g2.length)
    | _ => none
  | _ => none

/-- The optional group `(?:\s*(per|a|\/)\s*(hour|year|month|week|day))?`:
skip whitespace, one of `per`/`a`/`/` (case-insensitive, in that order),
skip whitespace, then a period word (case-insensitive).  Returns group 4
lower-cased, or `none` when the group does not match. -/
def salaryPeriodGroup (l : List Char) : Option (List Char) :=
  let r1 := l.dropWhile isWs
  let afterKw : Option (List Char) :=
    if ciStartsWith r1 "per".data then some (r1.drop 3)
    else if ciStartsWith r1 "a".data then some (r1.drop 1)
    else if ciStartsWith r1 "/".data then some (r1.drop 1)
    else none
  match afterKw with
  | none => none
  | some r2 =>
    let r3 := r2.dropWhile isWs
    if ciStartsWith r3 "hour".data then some "hour".data
    else if ciStartsWith r3 "year".data then some "year".data
    else if ciStartsWith r3 "month".data then some "month".data
    else if ciStartsWith r3 "week".data then some "week".data
    else if ciStartsWith r3 "day".data then some "day".data
    else none

/-- Leftmost match of the salary regex: scan for a `$` followed by a
nonempty `[0-9,.]` run, then try the two optional groups. -/
def salaryRegexMatch : List Char → Option SalaryMatch
  | [] => none
  | c :: rest =>
    if c == '$' then
      let g1 := rest.takeWhile isNumC
      if g1 = [] then salaryRegexMatch rest
      else
        let r1 := rest.drop g1.length
        match salaryDashGroup r1 with
        | some (g2, r2) => some ⟨g1, some g2, salaryPeriodGroup r2⟩
        | none => some ⟨g1, none, salaryPeriodGroup r1⟩
    else salaryRegexMatch rest

/-- The salary object built by `extractSalaryInfo`. -/
structure SalaryInfo where
  min : Option JsNum
  max : Option JsNum
  currency : String
  period : String
  deriving DecidableEq

/-- JavaScript truthiness of `salaryInfo.min`: falsy when the field is
`null`/`NaN` (`none`) or zero. -/
def salaryMinFalsy : Option JsNum → Bool
  | none => true
  | some n => n.mantissa == 0

/-- The assignment block the source runs on a successful salary match
(duplicated in the source for the highlight and description branches):
parse group 1 with commas stripped, use group 2 for the maximum when
present and the minimum otherwise, and remap the period only when group 4
is present. -/
def applySalaryMatch (info : SalaryInfo) (m : SalaryMatch) : SalaryInfo :=
  let minV := jsParseFloat (m.g1.filter (fun c => c ≠ ','))
  let maxV := match m.g2 with
    | some g => jsParseFloat (g.filter (fun c => c ≠ ','))
    | none => minV
  let period := match m.g4 with
    | some p =>
      if p = "hour".data then "hourly"
      else if p = "year".data then "yearly"
      else if p = "month".data then "monthly"
      else if p = "week".data then "weekly"
      else if p = "day".data then "daily"
      else info.period
    | none => info.period
  { min := minV, max := maxV, currency := info.currency, period := period }

/-- The highlight phase of `extractSalaryInfo` (lines 384-407): for every
highlight titled `Compensation` with a nonempty item list, apply the first
item that matches the salary regex.  The source's inner `break` leaves the
outer loop running, so a match in a later `Compensation` block overwrites
an earlier one. -/
def salaryFromHighlights (highlights : List Highlight) (info : SalaryInfo) : SalaryInfo :=
  highlights.foldl
    (fun acc h =>
      if h.title = "Compensation" ∧ h.items ≠ [] then
        match h.items.findSome? (fun item => salaryRegexMatch item.data) with
        | some m => applySalaryMatch acc m
        | none => acc
      else acc)
    info

/-- Model of `extractSalaryInfo`: start from the defaults
`{min: null, max: null, currency: 'USD', period: 'yearly'}`, run the
highlight phase, then fall back to the description exactly when the
minimum is still falsy and the description is truthy. -/
def extractSalaryInfo (job : NJob) : SalaryInfo :=
  let info := SalaryInfo.mk none none "USD" "yearly"
  let afterHighlights := salaryFromHighlights job.highlights info
  if salaryMinFalsy afterHighlights.min ∧ job.description ≠ "" then
    match salaryRegexMatch job.description.data with
    | some m => applySalaryMatch afterHighlights m
    | none => afterHighlights
  else afterHighlights

/-! ## RecordNormalizer (src/google_jobs_api.js, the `processedJobs` map
inside `searchJobs`, lines 59-94) -/

/-- The optional `detected_extensions` object of a raw result. -/
structure DetectedExtensions where
  posted_at : Option String
  schedule : Option String
  deriving DecidableEq

/-- A provider-native raw result as consumed by the normalizer; every
field the provider may omit is an `Option`. -/
structure RawResult where
  title : Option String
  company_name : Option String
  location : Option String
  description : Option String
  detected_extensions : Option DetectedExtensions
  job_highlights : Option (List Highlight)
  extensions : Option (List String)
  apply_link : Option String
  apply_links : Option (List String)
  via : Option String
  deriving DecidableEq

/-- Does `\s+-\s+` match a prefix of `l`?  (A nonempty whitespace run,
a dash, then at least one more whitespace character.  Since `-` is not
whitespace, the greedy `\s+` never needs to backtrack.) -/
def titleSepAt (l : List Char) : Bool :=
  let ws := l.takeWhile isWs
  ws ≠ [] &&
    (match l.drop ws.length with
     | '-' :: c :: _ => isWs c
     | _ => false)

/-- The title regex `/^(.*?)\s+-\s+/`: group 1 is the shortest prefix
(not containing a newline, which `.` does not match) followed by
`\s+-\s+`.  Returns group 1, or `none` when the regex does not match. -/
def titleCompanyMatch : List Char → Option (List Char)
  | [] => none
  | c :: cs =>
    if titleSepAt (c :: cs) then some []
    else if c == '\n' then none
    else (titleCompanyMatch cs).map (fun g => c :: g)

/-- The capture class `[\w\s&']` of the description regex. -/
def isDescCapC (c : Char) : Bool :=
  isWordC c || isWs c || c == '&' || c == '\''

/-- The terminator `(?:\sin|\.|\!|\,)` of the description regex: a
whitespace character followed by `in` (case-insensitively), or a period,
exclamation mark or comma. -/
def descTerminatorAt (l : List Char) : Bool :=
  match l with
  | c :: rest => (isWs c && ciStartsWith rest "in".data) || c == '.' || c == '!' || c == ','
  | [] => false

/-- The lazy capture `([\w\s&']+?)` followed by the terminator: the
shortest nonempty all-class prefix of `l` after which the terminator
matches. -/
def descLazyCapture : List Char → Option (List Char)
  | [] => none
  | c :: rest =>
    if isDescCapC c then
      if descTerminatorAt rest then some [c]
      else (descLazyCapture rest).map (fun g => c :: g)
    else none

/-- The `\s+` between the keyword and the capture, greedy with
backtracking: try consuming `k` whitespace characters for `k` from the
maximal run down to 1 (the capture class contains `\s`, so on backtrack
the capture may start with whitespace). -/
def descWsSplit : Nat → List Char → Option (List Char)
  | 0, _ => none
  | k + 1, l =>
    match descLazyCapture (l.drop (k + 1)) with
    | some g => some g
    | none => descWsSplit k l

/-- Match the tail of the description regex (everything after the
keyword alternation) against `l`. -/
def descAfterKeyword (l : List Char) : Option (List Char) :=
  descWsSplit (l.takeWhile isWs).length l

/-- The keyword alternation `(?:at|with|for|join)` (case-insensitive,
alternatives tried in source order): the length of the keyword matching
at the head of `l`, if any. -/
def descKeywordAt (l : List Char) : Option Nat :=
  if ciStartsWith l "at".data then some 2
  else if ciStartsWith l "with".data then some 4
  else if ciStartsWith l "for".data then some 3
  else if ciStartsWith l "join".data then some 4
  else none

/-- The description regex
`/(?:at|with|for|join)\s+([\w\s&']+?)(?:\sin|\.|\!|\,)/i`: leftmost
match, returning group 1 (nonempty by construction). -/
def descCompanyMatch : List Char → Option (List Char)
  | [] => none
  | c :: rest =>
    match descKeywordAt (c :: rest) with
    | some k =>
      match descAfterKeyword ((c :: rest).drop k) with
      | some g => some g
      | none => descCompanyMatch rest
    | none => descCompanyMatch rest

/-- The `companyName` variable after the title-pattern step (lines 61-69):
the provider field when truthy, else group 1 of the title regex when the
title is truthy, the regex matches and the group is nonempty, else the
original provider value. -/
def companyStage1 (r : RawResult) : Option String :=
  if jsTruthy r.company_name then r.company_name
  else
    match (if jsTruthy r.title then titleCompanyMatch (r.title.getD "").data else none) with
    | some g => if g = [] then r.company_name else some (String.mk g)
    | none => r.company_name

/-- The `companyName` variable after the description-pattern step (lines
71-78): when the name is still falsy and the description truthy, the
trimmed group 1 of the description regex if it matches. -/
def companyStage2 (r : RawResult) : Option String :=
  if !jsTruthy (companyStage1 r) && jsTruthy r.description then
    match descCompanyMatch (r.description.getD "").data with
    | some g => some (String.mk (trimL g))
    | none => companyStage1 r
  else companyStage1 r

/-- Model of the normalizer (lines 59-94): company recovery in the order
provider field, title pattern, description pattern, sentinel
(`companyStage1`, `companyStage2`), and sentinel defaults for the
remaining fields.  Each `if` mirrors one truthiness guard of the
source. -/
def normalize (r : RawResult) : NJob :=
  { title := jsOrStr r.title "Unknown Title"
    company := jsOrStr (companyStage2 r) "Unknown Company"
    location := jsOrStr r.location "Unknown Location"
    posted_at := jsOrStr (r.detected_extensions.bind (fun d => d.posted_at)) "Unknown"
    schedule := jsOrStr (r.detected_extensions.bind (fun d => d.schedule)) "Unknown"
    description := jsOrStr r.description "No description available"
    highlights := r.job_highlights.getD []
    extensions := r.extensions.getD []
    apply_link := if jsTruthy r.apply_link then r.apply_link else none
    apply_links := r.apply_links.getD []
    source := match r.via with
      | some v => if v = "" then "Unknown Source" else String.mk (replaceFirstL v.data "via ".data)
      | none => "Unknown Source" }

/-- The raw result with every provider field absent. -/
def emptyRawResult : RawResult :=
  { title := none
    company_name := none
    location := none
    description := none
    detected_extensions := none
    job_highlights := none
    extensions := none
    apply_link := none
    apply_links := none
    via := none }

/-! ## EnrichmentResolver (src/google_jobs_api.js, the Hunter.io block of
`processJobsForDatabase`, lines 279-359)

The collaborators (`getWebsiteUrlFromSearchAPI`, `getDomainFromUrl`,
`findEmailsWithHunter`, `findEmailsByCompanyName` from search_api.js and
hunter_api.js, which are outside the embedded sources) are modelled as
oracle parameters; the embedding records which of them the block invokes
and in what order. -/

/-- One contact record returned by the contact-lookup collaborator. -/
structure ContactRec where
  email : String
  firstName : Option String
  lastName : Option String
  position : Option String
  confidence : Option Nat
  deriving DecidableEq

/-- A call made by the enrichment block to one of its collaborators. -/
inductive LookupCall where
  | websiteLookup
  | byDomain (domain : String)
  | byCompanyName
  deriving DecidableEq

/-- The observable outcome of the enrichment block for one job: the
website and domain written into the processed job, the contact list, and
the collaborator calls in order. -/
structure EnrichOutcome where
  website : Option String
  domain : Option String
  emails : List ContactRec
  calls : List LookupCall
  deriving DecidableEq

/-- Model of the enrichment block: look the website up; when a URL is
found derive a domain from it; when a domain is derived search contacts
by domain; fall back to the company-name search when the domain search
returned no contacts, no domain was derived, or no website was found. -/
def enrichCompany (websiteUrl : Option String) (domainFromUrl : String → Option String)
    (emailsByDomain : String → List ContactRec) (emailsByName : List ContactRec) :
    EnrichOutcome :=
  match websiteUrl with
  | some url =>
    match domainFromUrl url with
    | some dom =>
      let emails := emailsByDomain dom
      if emails ≠ [] then
        ⟨some url, some dom, emails, [.websiteLookup, .byDomain dom]⟩
      else
        ⟨some url, some dom, emailsByName, [.websiteLookup, .byDomain dom, .byCompanyName]⟩
    | none =>
      ⟨some url, none, emailsByName, [.websiteLookup, .byCompanyName]⟩
  | none =>
    ⟨none, none, emailsByName, [.websiteLookup, .byCompanyName]⟩

/-- Is a call a domain-based contact search? -/
def isByDomainCall : LookupCall → Bool
  | .byDomain _ => true
  | _ => false

/-- Is a call a company-name contact search? -/
def isByCompanyNameCall : LookupCall → Bool
  | .byCompanyName => true
  | _ => false

/-! ## PersistenceStore (src/database.js, `createTables` lines 68-131 and
`insertJobsIntoDatabase` lines 138-250)

The two tables are modelled as row lists with a serial id counter.  The
`ON CONFLICT` clauses follow PostgreSQL semantics for the constraints
`unique_job_apply_link UNIQUE (apply_link)` and
`unique_google_contact_email UNIQUE (job_id, email)`: in particular a
`NULL` `apply_link` never conflicts, because the unique constraint treats
`NULL` values as distinct.  Timestamps (`CURRENT_TIMESTAMP`) are supplied
as a `now : Nat` parameter. -/

/-- The payload of one job insert: the seventeen `VALUES` parameters of
the job upsert (lines 180-198), plus the contact list the same loop
iteration inserts. -/
structure DbJob where
  title : String
  company : String
  location : String
  posted_at : String
  schedule : String
  description : String
  salary_min : Option JsNum
  salary_max : Option JsNum
  salary_currency : String
  salary_period : String
  skills : List String
  experience_level : String
  apply_link : Option String
  source : String
  scraped_at : String
  company_website : Option String
  company_domain : Option String
  emails : List ContactRec
  deriving DecidableEq

/-- One row of `culinary_jobs_google`. -/
structure JobRow where
  id : Nat
  title : String
  company : String
  location : String
  posted_at : String
  schedule : String
  description : String
  salary_min : Option JsNum
  salary_max : Option JsNum
  salary_currency : String
  salary_period : String
  skills : List String
  experience_level : String
  apply_link : Option String
  source : String
  scraped_at : String
  company_website : Option String
  company_domain : Option String
  date_added : Nat
  last_updated : Nat
  deriving DecidableEq

/-- The `culinary_jobs_google` table: rows plus the serial id counter. -/
structure JobsTable where
  rows : List JobRow
  nextId : Nat
  deriving DecidableEq

/-- One row of `culinary_contacts_google`. -/
structure ContactRow where
  id : Nat
  job_id : Nat
  email : String
  first_name : Option String
  last_name : Option String
  position : Option String
  confidence : Option Nat
  company : String
  domain : Option String
  date_added : Nat
  deriving DecidableEq

/-- The `culinary_contacts_google` table. -/
structure ContactsTable where
  rows : List ContactRow
  nextId : Nat
  deriving DecidableEq

/-- The database state touched by `insertJobsIntoDatabase`. -/
structure DbState where
  jobs : JobsTable
  contacts : ContactsTable
  deriving DecidableEq

/-- The conflict test of `ON CONFLICT (apply_link)`: a `NULL` apply link
conflicts with nothing; a non-null one conflicts with the (unique) row
carrying the same value. -/
def findJobConflict (t : JobsTable) (applyLink : Option String) : Option JobRow :=
  match applyLink with
  | none => none
  | some l => t.rows.find? (fun row => row.apply_link == some l)

/-- A fresh `culinary_jobs_google` row: explicit columns from the insert
parameters, `date_added` and `last_updated` from their
`CURRENT_TIMESTAMP` defaults. -/
def newJobRow (id : Nat) (j : DbJob) (now : Nat) : JobRow :=
  { id := id
    title := j.title
    company := j.company
    location := j.location
    posted_at := j.posted_at
    schedule := j.schedule
    description := j.description
    salary_min := j.salary_min
    salary_max := j.salary_max
    salary_currency := j.salary_currency
    salary_period := j.salary_period
    skills := j.skills
    experience_level := j.experience_level
    apply_link := j.apply_link
    source := j.source
    scraped_at := j.scraped_at
    company_website := j.company_website
    company_domain := j.company_domain
    date_added := now
    last_updated := now }

/-- The `DO UPDATE SET` list of the job upsert (lines 161-178): every
mutable column is replaced by the excluded row's value and `last_updated`
is refreshed; `id`, `apply_link` and `date_added` are not in the list. -/
def updateJobRow (row : JobRow) (j : DbJob) (now : Nat) : JobRow :=
  { row with
    title := j.title
    company := j.company
    location := j.location
    posted_at := j.posted_at
    schedule := j.schedule
    description := j.description
    salary_min := j.salary_min
    salary_max := j.salary_max
    salary_currency := j.salary_currency
    salary_period := j.salary_period
    skills := j.skills
    experience_level := j.experience_level
    source := j.source
    scraped_at := j.scraped_at
    company_website := j.company_website
    company_domain := j.company_domain
    last_updated := now }

/-- The job upsert `INSERT ... ON CONFLICT (apply_link) DO UPDATE ...
RETURNING id`: update the conflicting row in place when the conflict
fires, insert a fresh row otherwise; either way return the row id. -/
def upsertJobRow (t : JobsTable) (j : DbJob) (now : Nat) : JobsTable × Nat :=
  match findJobConflict t j.apply_link with
  | some row =>
    ({ rows := t.rows.map (fun r => if r.id = row.id then updateJobRow r j now else r)
       nextId := t.nextId }, row.id)
  | none =>
    ({ rows := t.rows ++ [newJobRow t.nextId j now], nextId := t.nextId + 1 }, t.nextId)

/-- The `DO UPDATE SET` list of the contact upsert (lines 209-215): the
name, position, confidence, company and domain columns are replaced;
`id`, `job_id`, `email` and `date_added` are kept. -/
def updateContactRow (r : ContactRow) (c : ContactRec) (company : String)
    (domain : Option String) : ContactRow :=
  { r with
    first_name := c.firstName
    last_name := c.lastName
    position := c.position
    confidence := c.confidence
    company := company
    domain := domain }

/-- A fresh `culinary_contacts_google` row: explicit columns from the
insert parameters, `date_added` from its `CURRENT_TIMESTAMP` default. -/
def newContactRow (id jobId : Nat) (c : ContactRec) (company : String)
    (domain : Option String) (now : Nat) : ContactRow :=
  { id := id
    job_id := jobId
    email := c.email
    first_name := c.firstName
    last_name := c.lastName
    position := c.position
    confidence := c.confidence
    company := company
    domain := domain
    date_added := now }

/-- The contact upsert `INSERT ... ON CONFLICT (job_id, email) DO UPDATE
...` (lines 205-225): keyed on the (job id, email) pair; update the
conflicting row in place when the conflict fires, insert a fresh row
otherwise. -/
def upsertContactRow (t : ContactsTable) (jobId : Nat) (c : ContactRec)
    (company : String) (domain : Option String) (now : Nat) : ContactsTable :=
  match t.rows.find? (fun row => row.job_id == jobId && row.email == c.email) with
  | some row =>
    { rows := t.rows.map (fun r =>
        if r.id = row.id then updateContactRow r c company domain else r)
      nextId := t.nextId }
  | none =>
    { rows := t.rows ++ [newContactRow t.nextId jobId c company domain now]
      nextId := t.nextId + 1 }

/-- One iteration of the job loop of `insertJobsIntoDatabase` (lines
151-236): upsert the job row, then upsert each of its contacts against
the returned job id. -/
def insertJobRecord (db : DbState) (j : DbJob) (now : Nat) : DbState :=
  let (jobsTable, jobId) := upsertJobRow db.jobs j now
  let contactsTable := j.emails.foldl
    (fun t c => upsertContactRow t jobId c j.company j.company_domain now) db.contacts
  { jobs := jobsTable, contacts := contactsTable }

/-- The transaction loop of `insertJobsIntoDatabase` under PostgreSQL
transaction semantics.  Each job is paired with a flag saying whether its
INSERT statement would succeed as such (false models, say, a constraint
violation).  The source opens one `BEGIN`/`COMMIT` block with no
savepoints, so the first failed statement leaves the transaction aborted:
every later statement fails too (PostgreSQL error 25P02, "current
transaction is aborted"), and the per-job `try`/`catch` of lines 152-235
swallows each failure without counting it.  Returns the would-be state of
the transaction's writes, the aborted flag, and `insertedCount`. -/
def insertLoop (now : Nat) : DbState → Bool → Nat → List (DbJob × Bool) → DbState × Bool × Nat
  | db, aborted, count, [] => (db, aborted, count)
  | db, aborted, count, (j, ok) :: rest =>
    if aborted then
      insertLoop now db aborted count rest
    else if ok then
      insertLoop now (insertJobRecord db j now) aborted (count + 1) rest
    else
      insertLoop now db true count rest

/-- Model of `insertJobsIntoDatabase`: run the loop from the incoming
state with a live transaction and `insertedCount = 0`.  Issuing `COMMIT`
on an aborted transaction performs a `ROLLBACK` (without raising, so the
outer catch of lines 242-245 does not fire): the state reverts to the one
at `BEGIN`, while `insertedCount` is returned regardless. -/
def insertJobsIntoDatabase (db : DbState) (jobs : List (DbJob × Bool)) (now : Nat) :
    DbState × Nat :=
  match insertLoop now db false 0 jobs with
  | (db2, aborted, count) => (if aborted then db else db2, count)

/-- Number of job rows carrying a given non-null apply link. -/
def applyLinkCount (t : JobsTable) (l : String) : Nat :=
  t.rows.countP (fun row => row.apply_link == some l)

/-- The uniqueness invariant of `unique_job_apply_link`: at most one row
per non-null apply link. -/
def applyLinkUnique (t : JobsTable) : Prop :=
  ∀ l : String, applyLinkCount t l ≤ 1

/-- Number of contact rows carrying a given (job id, email) pair. -/
def contactKeyCount (t : ContactsTable) (jobId : Nat) (email : String) : Nat :=
  t.rows.countP (fun row => row.job_id == jobId && row.email == email)

/-- The uniqueness invariant of `unique_google_contact_email`: at most one
row per (job id, email) pair. -/
def contactKeyUnique (t : ContactsTable) : Prop :=
  ∀ (jobId : Nat) (email : String), contactKeyCount t jobId email ≤ 1

/-- An empty database state. -/
def emptyDbState : DbState :=
  { jobs := { rows := [], nextId := 1 }
    contacts := { rows := [], nextId := 1 } }

/-- A concrete contact record used in witnesses. -/
def subwayContact : ContactRec :=
  { email := "hr@subway.example"
    firstName := some "Pat"
    lastName := some "Lee"
    position := some "HR"
    confidence := some 90 }

/-- A concrete job insert payload with a non-null apply link, used in
witnesses. -/
def subwayDbJob : DbJob :=
  { title := "Cook"
    company := "Subway"
    location := "New York, NY"
    posted_at := "3 days ago"
    schedule := "Full-time"
    description := "Prepare sandwiches."
    salary_min := some ⟨18, 0⟩
    salary_max := some ⟨22, 0⟩
    salary_currency := "USD"
    salary_period := "hourly"
    skills := ["cooking"]
    experience_level := "entry"
    apply_link := some "https://example.com/subway-cook"
    source := "Example"
    scraped_at := "2026-01-01T00:00:00Z"
    company_website := none
    company_domain := none
    emails := [subwayContact] }

/-- A concrete job insert payload with a null apply link, used in
witnesses. -/
def nullLinkDbJob : DbJob :=
  { subwayDbJob with apply_link := none, title := "Line Cook" }

/-! ## Theorems -/

/-- Claim C3, counterexample: the claim asserts
`classify("Uncle McDonald's Diner")` is NOT excluded, but in
`"uncle mcdonald's diner"` the brand `"mcdonald's"` is surrounded by
spaces, so the source's own token rule fires and the company IS excluded
as fast food. -/
theorem uncleMcDonaldsDiner_is_excluded :
    (shouldExcludeCompany "Uncle McDonald's Diner").isExcluded = true ∧
    (shouldExcludeCompany "Uncle McDonald's Diner").reason = some ExclusionReason.fast_food := by
  decide

/-- Claim C3, amended: classify returns excluded with reason fast_food
only when the lower-cased company name equals a brand exactly, starts
with the brand followed by a space, ends with a space followed by the
brand, or contains the brand surrounded by spaces;
`classify("mcdonald's express")` is excluded as fast_food, and
`classify("Uncle McDonald's Diner")` is ALSO excluded as fast_food,
because the brand there is surrounded by spaces. -/
theorem shouldExcludeCompany_fastFood_token_bounded :
    (∀ company : String,
      (shouldExcludeCompany company).reason = some ExclusionReason.fast_food →
      ∃ brand ∈ FAST_FOOD_RESTAURANTS,
        (jsLower company == brand ||
         containsL (jsLower company) (' ' :: (brand ++ [' '])) ||
         startsWithL (jsLower company) (brand ++ [' ']) ||
         endsWithL (jsLower company) (' ' :: brand)) = true) ∧
    shouldExcludeCompany "mcdonald's express"
      = ⟨true, some ExclusionReason.fast_food, some (jsLower "McDonald's")⟩ ∧
    shouldExcludeCompany "Uncle McDonald's Diner"
      = ⟨true, some ExclusionReason.fast_food, some (jsLower "McDonald's")⟩ := by
  refine ⟨?_, by decide, by decide⟩
  intro company h
  simp only [shouldExcludeCompany] at h
  split at h
  · simp at h
  · cases hex : EXCLUDED_COMPANIES.find? (fun excluded => containsL (jsLower company) excluded) with
    | some excluded => rw [hex] at h; simp at h
    | none =>
      rw [hex] at h
      cases hff : FAST_FOOD_RESTAURANTS.find?
          (fun fastFood => fastFoodTokenMatch (jsLower company) fastFood) with
      | some fastFood =>
        refine ⟨fastFood, List.mem_of_find?_eq_some hff, ?_⟩
        have hp := List.find?_some hff
        simpa [fastFoodTokenMatch] using hp
      | none => rw [hff] at h; simp at h

/-- Claim C3, witness for the amended theorem: instantiating the
token-boundedness direction at `"mcdonald's express"`. -/
theorem shouldExcludeCompany_fastFood_token_bounded_witness :
    ∃ brand ∈ FAST_FOOD_RESTAURANTS,
      (jsLower "mcdonald's express" == brand ||
       containsL (jsLower "mcdonald's express") (' ' :: (brand ++ [' '])) ||
       startsWithL (jsLower "mcdonald's express") (brand ++ [' ']) ||
       endsWithL (jsLower "mcdonald's express") (' ' :: brand)) = true :=
  shouldExcludeCompany_fastFood_token_bounded.1 "mcdonald's express" (by decide)

/-- Claim C2: failing-input evaluation.  The `excludeFastFood` and
`excludeRecruiters` toggles are destructured and logged by main.js but
never passed to `processJobsForDatabase`, whose exclusion checks run
unconditionally: the pipeline output is invariant in both toggles, and
with both toggles disabled a Subway job (fast-food list) and a Goodwin
Recruiting job (excluded-organization list) are still dropped, contrary
to the claim. -/
theorem mainProcessQuery_toggles_ignored :
    (∀ (fullTimeOnly eFastFood eRecruiters eFastFood2 eRecruiters2 : Bool)
       (jobs : List NJob),
      mainProcessQuery fullTimeOnly eFastFood eRecruiters jobs
        = mainProcessQuery fullTimeOnly eFastFood2 eRecruiters2 jobs) ∧
    mainProcessQuery false false false [subwayJob] = [] ∧
    mainProcessQuery false false false [recruiterJob] = [] :=
  ⟨fun _ _ _ _ _ _ => rfl, by decide, by decide⟩

/-- Step equation of the pagination loop: an empty page stops the loop at
once, whatever the remaining budget and the page's token. -/
theorem searchAllJobsAux_empty (p : Nat → SearchPage) (rem cur : Nat) (acc : List NJob)
    (hj : (p cur).jobs = []) :
    searchAllJobsAux p rem cur acc = (acc, cur + 1) := by
  cases rem <;> rw [searchAllJobsAux] <;> simp [hj]

/-- Step equation of the pagination loop: a nonempty page with the budget
exhausted stops the loop after accumulating the page. -/
theorem searchAllJobsAux_budget (p : Nat → SearchPage) (cur : Nat) (acc : List NJob)
    (hj : (p cur).jobs ≠ []) :
    searchAllJobsAux p 0 cur acc = (acc ++ (p cur).jobs, cur + 1) := by
  rw [searchAllJobsAux, if_neg hj]

/-- Step equation of the pagination loop: a nonempty page without a
continuation token stops the loop after accumulating the page. -/
theorem searchAllJobsAux_noToken (p : Nat → SearchPage) (rem cur : Nat) (acc : List NJob)
    (hj : (p cur).jobs ≠ []) (htok : (p cur).nextPageToken = none) :
    searchAllJobsAux p (rem + 1) cur acc = (acc ++ (p cur).jobs, cur + 1) := by
  rw [searchAllJobsAux, if_neg hj]
  rw [htok]

/-- Step equation of the pagination loop: a nonempty page with a token
and budget left continues with the next page. -/
theorem searchAllJobsAux_next (p : Nat → SearchPage) (rem cur : Nat) (acc : List NJob)
    (t : String) (hj : (p cur).jobs ≠ []) (htok : (p cur).nextPageToken = some t) :
    searchAllJobsAux p (rem + 1) cur acc
      = searchAllJobsAux p rem (cur + 1) (acc ++ (p cur).jobs) := by
  rw [searchAllJobsAux, if_neg hj]
  rw [htok]

/-- Invariants of the pagination loop: both components of the result,
from any loop state — the final `currentPage` exceeds the index of the
entry page, respects the remaining-page budget, and the accumulated jobs
are the accumulator followed by the fetched pages in order. -/
theorem searchAllJobsAux_spec (p : Nat → SearchPage) :
    ∀ (rem cur : Nat) (acc : List NJob),
      cur + 1 ≤ (searchAllJobsAux p rem cur acc).2 ∧
      (searchAllJobsAux p rem cur acc).2 ≤ cur + 1 + rem ∧
      (searchAllJobsAux p rem cur acc).1
        = acc ++ ((List.range' cur ((searchAllJobsAux p rem cur acc).2 - cur)).map
            (fun i => (p i).jobs)).flatten := by
  intro rem
  induction rem with
  | zero =>
    intro cur acc
    by_cases hj : (p cur).jobs = []
    · rw [searchAllJobsAux_empty p 0 cur acc hj]
      simp [List.range'_one, hj]
    · rw [searchAllJobsAux_budget p cur acc hj]
      simp [List.range'_one]
  | succ rem ih =>
    intro cur acc
    by_cases hj : (p cur).jobs = []
    · rw [searchAllJobsAux_empty p (rem + 1) cur acc hj]
      refine ⟨le_refl _, by omega, ?_⟩
      simp [List.range'_one, hj]
    · cases htok : (p cur).nextPageToken with
      | none =>
        rw [searchAllJobsAux_noToken p rem cur acc hj htok]
        refine ⟨le_refl _, by omega, ?_⟩
        simp [List.range'_one]
      | some t =>
        rw [searchAllJobsAux_next p rem cur acc t hj htok]
        obtain ⟨h1, h2, h3⟩ := ih (cur + 1) (acc ++ (p cur).jobs)
        refine ⟨by omega, by omega, ?_⟩
        rw [h3]
        have hn : (searchAllJobsAux p rem (cur + 1) (acc ++ (p cur).jobs)).2 - cur
            = ((searchAllJobsAux p rem (cur + 1) (acc ++ (p cur).jobs)).2 - (cur + 1)) + 1 := by
          omega
        rw [hn, List.range'_succ, List.map_cons, List.flatten_cons, List.append_assoc]

/-- The pagination loop stops at the first page with zero results: if
every earlier page from the entry index on was nonempty and carried a
token, and page `k` is within the budget and empty, the loop's final
`currentPage` is `k + 1`. -/
theorem searchAllJobsAux_stops_on_empty (p : Nat → SearchPage) :
    ∀ (rem cur : Nat) (acc : List NJob) (k : Nat),
      cur ≤ k → k ≤ cur + rem →
      (∀ i, cur ≤ i → i < k → (p i).jobs ≠ [] ∧ (p i).nextPageToken ≠ none) →
      (p k).jobs = [] →
      (searchAllJobsAux p rem cur acc).2 = k + 1 := by
  intro rem
  induction rem with
  | zero =>
    intro cur acc k h1 h2 _ hk
    have : cur = k := by omega
    subst this
    rw [searchAllJobsAux_empty p 0 cur acc hk]
  | succ rem ih =>
    intro cur acc k h1 h2 hprev hk
    by_cases hc : cur = k
    · subst hc
      rw [searchAllJobsAux_empty p (rem + 1) cur acc hk]
    · obtain ⟨hjne, htne⟩ := hprev cur (le_refl cur) (by omega)
      cases htok : (p cur).nextPageToken with
      | none => exact absurd htok htne
      | some t =>
        rw [searchAllJobsAux_next p rem cur acc t hjne htok]
        exact ih (cur + 1) (acc ++ (p cur).jobs) k (by omega) (by omega)
          (fun i hi1 hi2 => hprev i (by omega) hi2) hk

/-- Claim C5: pagination stops the first time a fetched page contains
zero results, even when that page carries a continuation token; at most
`maxPages` pages are fetched when `maxPages ≥ 1`; and the result is the
fetched pages concatenated in fetch order with within-page order
preserved. -/
theorem searchAllJobs_pagination :
    ∀ (p : Nat → SearchPage) (maxPages : Nat), 1 ≤ maxPages →
      (searchAllJobs p maxPages).2 ≤ maxPages ∧
      (searchAllJobs p maxPages).1
        = ((List.range (searchAllJobs p maxPages).2).map (fun i => (p i).jobs)).flatten ∧
      (∀ k, k + 1 ≤ maxPages →
        (∀ i, i < k → (p i).jobs ≠ [] ∧ (p i).nextPageToken ≠ none) →
        (p k).jobs = [] →
        (searchAllJobs p maxPages).2 = k + 1) := by
  intro p maxPages hmax
  obtain ⟨h1, h2, h3⟩ := searchAllJobsAux_spec p (maxPages - 1) 0 []
  simp only [searchAllJobs]
  refine ⟨by omega, ?_, ?_⟩
  · rw [List.range_eq_range']
    simpa using h3
  · intro k hk hprev hempty
    exact searchAllJobsAux_stops_on_empty p (maxPages - 1) 0 [] k (Nat.zero_le k)
      (by omega) (fun i _ hi2 => hprev i hi2) hempty

/-- Claim C5, witness: a provider whose first page has one job and a
continuation token and whose second page is empty but still carries a
token; with `maxPages = 5` the loop stops after two pages and returns
exactly the first page's jobs. -/
theorem searchAllJobs_pagination_witness :
    (searchAllJobs (fun i => if i = 0 then ⟨[subwayJob], some "t"⟩ else ⟨[], some "u"⟩) 5).2 = 2 ∧
    (searchAllJobs (fun i => if i = 0 then ⟨[subwayJob], some "t"⟩ else ⟨[], some "u"⟩) 5).1
      = [subwayJob] := by
  have h := searchAllJobs_pagination
    (fun i => if i = 0 then ⟨[subwayJob], some "t"⟩ else ⟨[], some "u"⟩) 5 (by decide)
  have h2 := h.2.2 1 (by decide)
    (fun i hi => by interval_cases i; exact ⟨by decide, by decide⟩) (by decide)
  refine ⟨h2, ?_⟩
  have hjobs := h.2.1
  rw [h2] at hjobs
  simpa using hjobs

/-- Claim C6: in the enrichment fallback chain, when the website lookup
returns a URL from which no domain can be derived, the domain-based
contact search is never invoked and the company-name search is invoked
exactly once; in general the company-name search is invoked at most once,
and exactly once precisely when no website was found, no domain could be
derived, or the domain search returned no contacts. -/
theorem enrichCompany_fallback :
    ∀ (websiteUrl : Option String) (domainFromUrl : String → Option String)
      (emailsByDomain : String → List ContactRec) (emailsByName : List ContactRec),
      (enrichCompany websiteUrl domainFromUrl emailsByDomain emailsByName).calls.countP
          isByCompanyNameCall ≤ 1 ∧
      (∀ url, websiteUrl = some url → domainFromUrl url = none →
        (enrichCompany websiteUrl domainFromUrl emailsByDomain emailsByName).calls.countP
            isByDomainCall = 0 ∧
        (enrichCompany websiteUrl domainFromUrl emailsByDomain emailsByName).calls.countP
            isByCompanyNameCall = 1) ∧
      ((enrichCompany websiteUrl domainFromUrl emailsByDomain emailsByName).calls.countP
          isByCompanyNameCall = 1 ↔
        (websiteUrl = none ∨
         (∃ url, websiteUrl = some url ∧ domainFromUrl url = none) ∨
         (∃ url dom, websiteUrl = some url ∧ domainFromUrl url = some dom ∧
            emailsByDomain dom = []))) := by
  intro websiteUrl domainFromUrl emailsByDomain emailsByName
  cases websiteUrl with
  | none =>
    simp [enrichCompany, List.countP_cons, isByCompanyNameCall, isByDomainCall]
  | some url =>
    cases hdom : domainFromUrl url with
    | none =>
      simp [enrichCompany, hdom, List.countP_cons, isByCompanyNameCall, isByDomainCall]
    | some dom =>
      by_cases he : emailsByDomain dom = []
      · simp [enrichCompany, hdom, he, List.countP_cons, isByCompanyNameCall, isByDomainCall]
      · simp [enrichCompany, hdom, he, List.countP_cons, isByCompanyNameCall, isByDomainCall]

/-- Claim C6, witness: with a website URL from which no domain can be
derived, the domain search is not called and the company-name search is
called exactly once. -/
theorem enrichCompany_fallback_witness :
    (enrichCompany (some "https://example") (fun _ => none) (fun _ => []) []).calls.countP
        isByDomainCall = 0 ∧
    (enrichCompany (some "https://example") (fun _ => none) (fun _ => []) []).calls.countP
        isByCompanyNameCall = 1 :=
  (enrichCompany_fallback (some "https://example") (fun _ => none) (fun _ => []) []).2.1
    "https://example" rfl rfl

/-- The `DO UPDATE SET` list of the job upsert does not touch
`apply_link`. -/
theorem updateJobRow_apply_link (r : JobRow) (j : DbJob) (now : Nat) :
    (updateJobRow r j now).apply_link = r.apply_link := rfl

/-- The conflict test on a non-null apply link is the row search for that
link. -/
theorem findJobConflict_some (t : JobsTable) (l : String) :
    findJobConflict t (some l) = t.rows.find? (fun row => row.apply_link == some l) := rfl

/-- Branch equation of the job upsert when the conflict fires. -/
theorem upsertJobRow_conflict (t : JobsTable) (j : DbJob) (now : Nat) (row : JobRow)
    (h : findJobConflict t j.apply_link = some row) :
    upsertJobRow t j now
      = ({ rows := t.rows.map (fun r => if r.id = row.id then updateJobRow r j now else r)
           nextId := t.nextId }, row.id) := by
  unfold upsertJobRow
  rw [h]

/-- Branch equation of the job upsert when there is no conflict. -/
theorem upsertJobRow_insert (t : JobsTable) (j : DbJob) (now : Nat)
    (h : findJobConflict t j.apply_link = none) :
    upsertJobRow t j now
      = ({ rows := t.rows ++ [newJobRow t.nextId j now], nextId := t.nextId + 1 },
         t.nextId) := by
  unfold upsertJobRow
  rw [h]

/-- The conflict-branch map of the job upsert preserves the number of
rows carrying any given apply link. -/
theorem countP_map_updateJobRow (rows : List JobRow) (j : DbJob) (now rid : Nat) (l : String) :
    (rows.map (fun r => if r.id = rid then updateJobRow r j now else r)).countP
        (fun row => row.apply_link == some l)
      = rows.countP (fun row => row.apply_link == some l) := by
  rw [List.countP_map]
  refine List.countP_congr ?_
  intro a _
  by_cases hid : a.id = rid <;> simp [Function.comp, hid, updateJobRow_apply_link]

/-- The first upsert of a job with a non-null apply link leaves exactly
one row with that link, provided the table satisfies the uniqueness
constraint. -/
theorem upsertJobRow_count_one (t : JobsTable) (j : DbJob) (l : String) (now : Nat)
    (hl : j.apply_link = some l) (hu : applyLinkUnique t) :
    applyLinkCount (upsertJobRow t j now).1 l = 1 := by
  cases hf : findJobConflict t j.apply_link with
  | none =>
    rw [upsertJobRow_insert t j now hf]
    rw [hl, findJobConflict_some] at hf
    have h0 : t.rows.countP (fun row => row.apply_link == some l) = 0 := by
      rw [List.countP_eq_zero]
      intro a ha
      exact List.find?_eq_none.mp hf a ha
    simp only [applyLinkCount, List.countP_append, h0]
    simp [newJobRow, hl]
  | some row =>
    rw [upsertJobRow_conflict t j now row hf]
    rw [hl, findJobConflict_some] at hf
    have hmem := List.mem_of_find?_eq_some hf
    have hp := List.find?_some hf
    have hpos : 0 < t.rows.countP (fun row => row.apply_link == some l) :=
      List.countP_pos_iff.mpr ⟨row, hmem, hp⟩
    have hle := hu l
    simp only [applyLinkCount] at hle ⊢
    rw [countP_map_updateJobRow]
    omega

/-- A repeated upsert of a job whose apply link already has exactly one
row fires the conflict clause: the count stays one and no row is
added. -/
theorem upsertJobRow_update_in_place (t : JobsTable) (j : DbJob) (l : String) (now : Nat)
    (hl : j.apply_link = some l) (h1 : applyLinkCount t l = 1) :
    applyLinkCount (upsertJobRow t j now).1 l = 1 ∧
    (upsertJobRow t j now).1.rows.length = t.rows.length := by
  cases hf : findJobConflict t j.apply_link with
  | none =>
    exfalso
    rw [hl, findJobConflict_some] at hf
    have h0 : t.rows.countP (fun row => row.apply_link == some l) = 0 := by
      rw [List.countP_eq_zero]
      intro a ha
      exact List.find?_eq_none.mp hf a ha
    simp only [applyLinkCount] at h1
    omega
  | some row =>
    rw [upsertJobRow_conflict t j now row hf]
    constructor
    · simp only [applyLinkCount] at h1 ⊢
      rw [countP_map_updateJobRow, h1]
    · simp

/-- The `DO UPDATE SET` list of the contact upsert does not touch the
(job id, email) key. -/
theorem updateContactRow_key (r : ContactRow) (c : ContactRec) (company : String)
    (domain : Option String) :
    (updateContactRow r c company domain).job_id = r.job_id ∧
    (updateContactRow r c company domain).email = r.email := ⟨rfl, rfl⟩

/-- The conflict-branch map of the contact upsert preserves the number of
rows carrying any given (job id, email) key. -/
theorem countP_map_updateContactRow (rows : List ContactRow) (c : ContactRec)
    (company : String) (domain : Option String) (rid jobId : Nat) (email : String) :
    (rows.map (fun r => if r.id = rid then updateContactRow r c company domain else r)).countP
        (fun row => row.job_id == jobId && row.email == email)
      = rows.countP (fun row => row.job_id == jobId && row.email == email) := by
  rw [List.countP_map]
  refine List.countP_congr ?_
  intro a _
  by_cases hid : a.id = rid <;> simp [Function.comp, hid, updateContactRow]

/-- Branch equation of the contact upsert when the conflict fires. -/
theorem upsertContactRow_conflict (t : ContactsTable) (jobId : Nat) (c : ContactRec)
    (company : String) (domain : Option String) (now : Nat) (row : ContactRow)
    (h : t.rows.find? (fun row => row.job_id == jobId && row.email == c.email) = some row) :
    upsertContactRow t jobId c company domain now
      = { rows := t.rows.map (fun r =>
            if r.id = row.id then updateContactRow r c company domain else r)
          nextId := t.nextId } := by
  unfold upsertContactRow
  rw [h]

/-- Branch equation of the contact upsert when there is no conflict. -/
theorem upsertContactRow_insert (t : ContactsTable) (jobId : Nat) (c : ContactRec)
    (company : String) (domain : Option String) (now : Nat)
    (h : t.rows.find? (fun row => row.job_id == jobId && row.email == c.email) = none) :
    upsertContactRow t jobId c company domain now
      = { rows := t.rows ++ [newContactRow t.nextId jobId c company domain now]
          nextId := t.nextId + 1 } := by
  unfold upsertContactRow
  rw [h]

/-- The first upsert of a contact leaves exactly one row with its
(job id, email) key, provided the table satisfies the uniqueness
constraint. -/
theorem upsertContactRow_count_one (t : ContactsTable) (jobId : Nat) (c : ContactRec)
    (company : String) (domain : Option String) (now : Nat) (hu : contactKeyUnique t) :
    contactKeyCount (upsertContactRow t jobId c company domain now) jobId c.email = 1 := by
  cases hf : t.rows.find? (fun row => row.job_id == jobId && row.email == c.email) with
  | none =>
    rw [upsertContactRow_insert t jobId c company domain now hf]
    have h0 : t.rows.countP (fun row => row.job_id == jobId && row.email == c.email) = 0 := by
      rw [List.countP_eq_zero]
      intro a ha
      exact List.find?_eq_none.mp hf a ha
    simp only [contactKeyCount, List.countP_append, h0]
    simp [newContactRow]
  | some row =>
    rw [upsertContactRow_conflict t jobId c company domain now row hf]
    have hmem := List.mem_of_find?_eq_some hf
    have hp := List.find?_some hf
    have hpos : 0 < t.rows.countP (fun row => row.job_id == jobId && row.email == c.email) :=
      List.countP_pos_iff.mpr ⟨row, hmem, hp⟩
    have hle := hu jobId c.email
    simp only [contactKeyCount] at hle ⊢
    rw [countP_map_updateContactRow]
    omega

/-- A repeated upsert of a contact whose (job id, email) key already has
exactly one row fires the conflict clause: the count stays one and no row
is added. -/
theorem upsertContactRow_update_in_place (t : ContactsTable) (jobId : Nat) (c : ContactRec)
    (company : String) (domain : Option String) (now : Nat)
    (h1 : contactKeyCount t jobId c.email = 1) :
    contactKeyCount (upsertContactRow t jobId c company domain now) jobId c.email = 1 ∧
    (upsertContactRow t jobId c company domain now).rows.length = t.rows.length := by
  cases hf : t.rows.find? (fun row => row.job_id == jobId && row.email == c.email) with
  | none =>
    exfalso
    have h0 : t.rows.countP (fun row => row.job_id == jobId && row.email == c.email) = 0 := by
      rw [List.countP_eq_zero]
      intro a ha
      exact List.find?_eq_none.mp hf a ha
    simp only [contactKeyCount] at h1
    omega
  | some row =>
    rw [upsertContactRow_conflict t jobId c company domain now row hf]
    constructor
    · simp only [contactKeyCount] at h1 ⊢
      rw [countP_map_updateContactRow, h1]
    · simp

/-- Claim C1: upserting is idempotent on the apply_link identity key —
for a job with a non-null apply link, two upserts leave exactly one job
row with that link, the second updating in place without adding a row,
and two upserts of the same (job id, email) contact pair leave exactly
one contact row, the second updating in place without adding a row. -/
theorem upsert_idempotent_on_apply_link :
    (∀ (db : DbState) (j : DbJob) (l : String) (now now2 : Nat),
      j.apply_link = some l → applyLinkUnique db.jobs →
      applyLinkCount (insertJobRecord db j now).jobs l = 1 ∧
      applyLinkCount (insertJobRecord (insertJobRecord db j now) j now2).jobs l = 1 ∧
      (insertJobRecord (insertJobRecord db j now) j now2).jobs.rows.length
        = (insertJobRecord db j now).jobs.rows.length) ∧
    (∀ (t : ContactsTable) (jobId : Nat) (c : ContactRec) (company : String)
       (domain : Option String) (now now2 : Nat),
      contactKeyUnique t →
      contactKeyCount (upsertContactRow t jobId c company domain now) jobId c.email = 1 ∧
      contactKeyCount (upsertContactRow (upsertContactRow t jobId c company domain now)
          jobId c company domain now2) jobId c.email = 1 ∧
      (upsertContactRow (upsertContactRow t jobId c company domain now) jobId c company
          domain now2).rows.length
        = (upsertContactRow t jobId c company domain now).rows.length) := by
  constructor
  · intro db j l now now2 hl hu
    have hjobs1 : (insertJobRecord db j now).jobs = (upsertJobRow db.jobs j now).1 := rfl
    have hjobs2 : (insertJobRecord (insertJobRecord db j now) j now2).jobs
        = (upsertJobRow (insertJobRecord db j now).jobs j now2).1 := rfl
    have hc1 : applyLinkCount (insertJobRecord db j now).jobs l = 1 := by
      rw [hjobs1]; exact upsertJobRow_count_one db.jobs j l now hl hu
    obtain ⟨hc2, hlen⟩ :=
      upsertJobRow_update_in_place (insertJobRecord db j now).jobs j l now2 hl hc1
    exact ⟨hc1, by rw [hjobs2]; exact hc2, by rw [hjobs2]; exact hlen⟩
  · intro t jobId c company domain now now2 hu
    have hc1 := upsertContactRow_count_one t jobId c company domain now hu
    obtain ⟨hc2, hlen⟩ := upsertContactRow_update_in_place
      (upsertContactRow t jobId c company domain now) jobId c company domain now2 hc1
    exact ⟨hc1, hc2, hlen⟩

/-- Claim C1, witness: a fresh database, one concrete job upserted
twice. -/
theorem upsert_idempotent_on_apply_link_witness :
    applyLinkCount
      (insertJobRecord (insertJobRecord emptyDbState subwayDbJob 5) subwayDbJob 6).jobs
      "https://example.com/subway-cook" = 1 ∧
    contactKeyCount
      (upsertContactRow (upsertContactRow emptyDbState.contacts 1 subwayContact "Subway" none 5)
        1 subwayContact "Subway" none 6) 1 subwayContact.email = 1 :=
  ⟨(upsert_idempotent_on_apply_link.1 emptyDbState subwayDbJob
      "https://example.com/subway-cook" 5 6 rfl
      (fun l => by simp [applyLinkCount, emptyDbState])).2.1,
   (upsert_idempotent_on_apply_link.2 emptyDbState.contacts 1 subwayContact "Subway" none 5 6
      (fun jobId email => by simp [contactKeyCount, emptyDbState])).2.1⟩

/-- Claim C10: for a job with a null apply link the conflict clause never
fires — PostgreSQL's unique constraint treats NULLs as distinct — so
persisting the job twice appends two distinct fresh rows, and the one-row
idempotence property of C1 does not apply. -/
theorem nullApplyLink_inserts_two_rows :
    ∀ (db : DbState) (j : DbJob) (now now2 : Nat),
      j.apply_link = none →
      findJobConflict db.jobs j.apply_link = none ∧
      findJobConflict (insertJobRecord db j now).jobs j.apply_link = none ∧
      (insertJobRecord db j now).jobs.rows
        = db.jobs.rows ++ [newJobRow db.jobs.nextId j now] ∧
      (insertJobRecord (insertJobRecord db j now) j now2).jobs.rows
        = db.jobs.rows ++ [newJobRow db.jobs.nextId j now,
                           newJobRow (db.jobs.nextId + 1) j now2] ∧
      newJobRow db.jobs.nextId j now ≠ newJobRow (db.jobs.nextId + 1) j now2 := by
  intro db j now now2 hl
  have hconf : ∀ t : JobsTable, findJobConflict t j.apply_link = none := by
    intro t
    rw [hl]
    rfl
  have h1 : (insertJobRecord db j now).jobs
      = { rows := db.jobs.rows ++ [newJobRow db.jobs.nextId j now]
          nextId := db.jobs.nextId + 1 } := by
    have := upsertJobRow_insert db.jobs j now (hconf db.jobs)
    show (upsertJobRow db.jobs j now).1 = _
    rw [this]
  have h2 : (insertJobRecord (insertJobRecord db j now) j now2).jobs
      = { rows := (insertJobRecord db j now).jobs.rows
            ++ [newJobRow (insertJobRecord db j now).jobs.nextId j now2]
          nextId := (insertJobRecord db j now).jobs.nextId + 1 } := by
    have := upsertJobRow_insert (insertJobRecord db j now).jobs j now2
      (hconf (insertJobRecord db j now).jobs)
    show (upsertJobRow (insertJobRecord db j now).jobs j now2).1 = _
    rw [this]
  refine ⟨hconf db.jobs, hconf (insertJobRecord db j now).jobs, ?_, ?_, ?_⟩
  · rw [h1]
  · rw [h2, h1]
    simp
  · intro h
    have := congrArg JobRow.id h
    simp [newJobRow] at this

/-- Claim C10, witness: the empty database with a concrete null-link job
persisted twice holds two rows. -/
theorem nullApplyLink_inserts_two_rows_witness :
    (insertJobRecord (insertJobRecord emptyDbState nullLinkDbJob 5) nullLinkDbJob 6).jobs.rows
      = [newJobRow 1 nullLinkDbJob 5, newJobRow 2 nullLinkDbJob 6] := by
  have h := nullApplyLink_inserts_two_rows emptyDbState nullLinkDbJob 5 6 rfl
  simpa [emptyDbState] using h.2.2.2.1

/-- Claim C4: failing-input evaluation.  database.js wraps the whole
batch in one `BEGIN`/`COMMIT` with no savepoints, so one failed INSERT
aborts the transaction: in a batch where the first job succeeds and the
second job's insert fails, `COMMIT` performs a `ROLLBACK` — the
previously-succeeded job IS rolled back and nothing is persisted — while
`insertedCount = 1` is still returned; with the failure first, the later
good job's statement also fails inside the aborted transaction and the
call returns count 0.  Only an all-success batch commits its jobs, here
both rows.  This contradicts the claim (and spec section 4.7), which
promise per-job isolation inside the transaction. -/
theorem insertJobs_abort_rolls_back :
    insertJobsIntoDatabase emptyDbState [(subwayDbJob, true), (nullLinkDbJob, false)] 5
      = (emptyDbState, 1) ∧
    insertJobsIntoDatabase emptyDbState [(nullLinkDbJob, false), (subwayDbJob, true)] 5
      = (emptyDbState, 0) ∧
    (insertJobsIntoDatabase emptyDbState [(subwayDbJob, true), (nullLinkDbJob, true)]
        5).1.jobs.rows.length = 2 ∧
    (insertJobsIntoDatabase emptyDbState [(subwayDbJob, true), (nullLinkDbJob, true)] 5).2
      = 2 := by
  exact ⟨by decide, by decide, by decide, by decide⟩

/-- Claim C8, counterexample: with two `Compensation` highlight blocks the
first match of the salary pattern is `$10 per hour` (first block), yet the
code returns `min = max = 20` from the second block — the source's inner
`break` leaves the outer highlight loop running, so the later block
overrides — and keeps the first block's `hourly` period because the
second match lacks a period keyword, so the result is neither the first
match nor the yearly default. -/
theorem extractSalaryInfo_later_block_overrides :
    salaryRegexMatch "$10 per hour".data
      = some ⟨"10".data, none, some "hour".data⟩ ∧
    extractSalaryInfo
      { subwayJob with
        description := ""
        highlights := [⟨"Compensation", ["$10 per hour"]⟩, ⟨"Compensation", ["$20"]⟩] }
      = ⟨some ⟨20, 0⟩, some ⟨20, 0⟩, "USD", "hourly"⟩ := by
  exact ⟨by decide, by decide⟩

/-- Claim C8, amended: salary extraction searches Compensation-titled
highlight items before the free-text description — the description is
consulted only when the highlight phase left the minimum falsy — taking
the first matching item within each Compensation block with a later
block's match overriding an earlier one; numbers strip thousands
separators, max = min when only a minimum is found, and a present period
keyword maps to the period enum while absence leaves the period (yearly
at the start); the instance `"Pay: $18 - $22 per hour"` yields
salary_min = 18, salary_max = 22, period = hourly, currency = USD. -/
theorem extractSalaryInfo_spec :
    extractSalaryInfo
        { subwayJob with description := "Pay: $18 - $22 per hour", highlights := [] }
      = ⟨some ⟨18, 0⟩, some ⟨22, 0⟩, "USD", "hourly"⟩ ∧
    extractSalaryInfo
        { subwayJob with description := "Salary $52,000 a year.", highlights := [] }
      = ⟨some ⟨52000, 0⟩, some ⟨52000, 0⟩, "USD", "yearly"⟩ ∧
    (∀ job : NJob,
      salaryMinFalsy
          (salaryFromHighlights job.highlights (SalaryInfo.mk none none "USD" "yearly")).min
        = false →
      extractSalaryInfo job
        = salaryFromHighlights job.highlights (SalaryInfo.mk none none "USD" "yearly")) ∧
    (∀ (info : SalaryInfo) (m : SalaryMatch),
      (m.g2 = none → (applySalaryMatch info m).max = (applySalaryMatch info m).min) ∧
      (m.g4 = none → (applySalaryMatch info m).period = info.period ∧
        (applySalaryMatch info m).currency = info.currency)) := by
  refine ⟨by decide, by decide, ?_, ?_⟩
  · intro job h
    simp [extractSalaryInfo, h]
  · intro info m
    constructor
    · intro h2
      simp [applySalaryMatch, h2]
    · intro h4
      simp [applySalaryMatch, h4]

/-- Claim C8, witness: a job whose Compensation highlight matches with a
nonzero minimum takes its salary from the highlight phase, ignoring the
description. -/
theorem extractSalaryInfo_spec_witness :
    extractSalaryInfo
        { subwayJob with
          description := "Pay: $99 per day"
          highlights := [⟨"Compensation", ["$30 per week"]⟩] }
      = salaryFromHighlights [⟨"Compensation", ["$30 per week"]⟩]
          (SalaryInfo.mk none none "USD" "yearly") :=
  extractSalaryInfo_spec.2.2.1
    { subwayJob with
      description := "Pay: $99 per day"
      highlights := [⟨"Compensation", ["$30 per week"]⟩] }
    (by decide)

/-- The JavaScript default idiom never yields the empty string when its
default is nonempty. -/
theorem jsOrStr_ne_empty (o : Option String) (d : String) (hd : d ≠ "") :
    jsOrStr o d ≠ "" := by
  cases o with
  | none => simpa [jsOrStr] using hd
  | some v =>
    by_cases hv : v = "" <;> simp [jsOrStr, hv, hd]

/-- Claim C7: normalization is total — it is a function on all raw
results, and its title, company, location and description are never
empty (real values or the sentinels) — and the company is recovered in
the order provider field, title pattern, description pattern, sentinel. -/
theorem normalize_total :
    ∀ r : RawResult,
      (normalize r).title ≠ "" ∧
      (normalize r).company ≠ "" ∧
      (normalize r).location ≠ "" ∧
      (normalize r).description ≠ "" ∧
      (∀ c, r.company_name = some c → c ≠ "" → (normalize r).company = c) ∧
      (jsTruthy r.company_name = false → jsTruthy r.title = true →
        ∀ g, titleCompanyMatch (r.title.getD "").data = some g → g ≠ [] →
          (normalize r).company = String.mk g) ∧
      (jsTruthy (companyStage1 r) = false → jsTruthy r.description = true →
        ∀ g, descCompanyMatch (r.description.getD "").data = some g →
          (normalize r).company
            = jsOrStr (some (String.mk (trimL g))) "Unknown Company") ∧
      (jsTruthy (companyStage2 r) = false → (normalize r).company = "Unknown Company") := by
  intro r
  refine ⟨jsOrStr_ne_empty _ _ (by decide), jsOrStr_ne_empty _ _ (by decide),
    jsOrStr_ne_empty _ _ (by decide), jsOrStr_ne_empty _ _ (by decide),
    ?_, ?_, ?_, ?_⟩
  · intro c hc hne
    simp [normalize, companyStage2, companyStage1, jsTruthy, jsOrStr, hc, hne]
  · intro h0 ht g hm hg
    have hs1 : companyStage1 r = some (String.mk g) := by
      simp [companyStage1, h0, ht, hm, hg]
    have hmk : String.mk g ≠ "" := by simpa [String.ext_iff] using hg
    have hs2 : companyStage2 r = some (String.mk g) := by
      simp [companyStage2, hs1, jsTruthy, hmk]
    simp [normalize, hs2, jsOrStr, hmk]
  · intro h1 hd g hm
    have hs2 : companyStage2 r = some (String.mk (trimL g)) := by
      simp [companyStage2, h1, hd, hm]
    simp [normalize, hs2]
  · intro h2
    revert h2
    cases hs2 : companyStage2 r with
    | none => intro _; simp [normalize, hs2, jsOrStr]
    | some v =>
      intro h2
      have hv : v = "" := by simpa [jsTruthy, hs2] using h2
      simp [normalize, hs2, jsOrStr, hv]

/-- Claim C7, witness: the company recovered from the provider field at a
concrete raw result, and the sentinel at the all-absent raw result. -/
theorem normalize_total_witness :
    (normalize { emptyRawResult with company_name := some "Luna Bistro" }).company
      = "Luna Bistro" ∧
    (normalize emptyRawResult).company = "Unknown Company" :=
  ⟨(normalize_total { emptyRawResult with company_name := some "Luna Bistro" }).2.2.2.2.1
      "Luna Bistro" rfl (by decide),
   (normalize_total emptyRawResult).2.2.2.2.2.2.2 (by decide)⟩

/-- Claim C9: experience-level classification is a function of the title
alone, checked in the fixed precedence executive, senior, entry, with
default mid; the title `"Senior Executive Chef"` yields `"executive"`
even though a senior-tier keyword (`"senior"`) also matches. -/
theorem calculateExperienceLevel_precedence :
    (∀ job : NJob, calculateExperienceLevel job =
      (if titleMatchesTier job.title executiveKeywords then "executive"
       else if titleMatchesTier job.title seniorKeywords then "senior"
       else if titleMatchesTier job.title entryKeywords then "entry"
       else "mid")) ∧
    calculateExperienceLevel { subwayJob with title := "Senior Executive Chef" } = "executive" ∧
    titleMatchesTier "Senior Executive Chef" seniorKeywords = true := by
  refine ⟨?_, by decide, by decide⟩
  intro job
  simp only [calculateExperienceLevel, titleMatchesTier, executiveKeywords,
    seniorKeywords, entryKeywords, List.any_cons, List.any_nil, Bool.or_false,
    Bool.or_assoc]

end GoogleJobs
